import Mathlib

/-!
A shallow embedding of the ctf-gameserver checker database layer
(`src/ctf_gameserver/checker/database.py`) and of the controller's main
loop step (known here through its tests in
`tests/controller/test_main_loop.py` and through the specification).

Database tables are embedded as Lean lists of rows; SQL statements become
list operations over those rows.  `NOW()` becomes an explicit timestamp
argument, and `ORDER BY RANDOM()` becomes an explicit reordering function
argument (assumed to be a permutation where a claim needs it).
-/

namespace CtfGameserver

/-- A row of the `scoring_gamecontrol` table (the CompetitionControl
singleton): `start`, `valid_ticks`, `tick_duration` and the mutable
`current_tick` cursor.  Timestamps and durations are integers (seconds). -/
structure GameControl where
  start : Int
  valid_ticks : Int
  tick_duration : Int
  current_tick : Int
  deriving Repr, DecidableEq

/-- A row of the `scoring_flag` table (a WorkItem): `placement_start` is
the claim timestamp (`claimedAt`), `placement_end` the close timestamp
(`closedAt`); both are null while unset. -/
structure Flag where
  id : Nat
  service_id : Nat
  protecting_team_id : Nat
  tick : Int
  placement_start : Option Int
  placement_end : Option Int
  deriving Repr, DecidableEq

/-- A row of the `registration_team` table: internal id `user_id` and the
externally visible `net_number`. -/
structure Team where
  user_id : Nat
  net_number : Nat
  deriving Repr, DecidableEq

/-- A row of the `scoring_service` table. -/
structure Service where
  id : Nat
  name : String
  slug : String
  deriving Repr, DecidableEq

/-- A row of the `scoring_statuscheck` table (an Outcome): appended once
per committed checker result. -/
structure StatusCheck where
  service_id : Nat
  team_id : Nat
  tick : Int
  status : Int
  timestamp : Int
  deriving Repr, DecidableEq

/-- The game database: the `scoring_gamecontrol` singleton (`none` while
unconfigured), the reference tables and the mutable `scoring_flag` and
`scoring_statuscheck` tables.  `next_flag_id` models the id sequence used
when new flag rows are inserted. -/
structure GameDB where
  control : Option GameControl
  services : List Service
  teams : List Team
  flags : List Flag
  statuschecks : List StatusCheck
  next_flag_id : Nat
  deriving Repr, DecidableEq

/-- A row of the `checkerstate` table in the state database: the key is
`(service_id, team_net_no, identifier)`, the value an opaque blob. -/
structure StateRow where
  service_id : Nat
  team_net_no : Nat
  identifier : String
  data : List Nat
  deriving Repr, DecidableEq

/-- The state database is just the `checkerstate` table. -/
abbrev StateDB : Type := List StateRow

/-- Embeds `get_task_count` (database.py lines 96-109): counts the rows of
`scoring_flag` joined with `scoring_gamecontrol` whose tick equals
`current_tick` and whose service matches; there is no condition on
`placement_start`, so claimed tasks are counted too.  With no
`scoring_gamecontrol` row the join is empty and the count is 0. -/
def get_task_count (db : GameDB) (service_id : Nat) : Nat :=
  match db.control with
  | none => 0
  | some control =>
      (db.flags.filter (fun flag =>
        flag.tick == control.current_tick && flag.service_id == service_id)).length

/-- The rows produced by the SELECT in `get_new_tasks` (database.py lines
118-126) before `ORDER BY RANDOM()` and `LIMIT`: open flags
(`placement_start IS NULL`) of the service at the current tick, joined
with `registration_team` on `protecting_team_id = user_id`. -/
def joinRows (db : GameDB) (service_id : Nat) : List (Flag × Team) :=
  match db.control with
  | none => []
  | some control =>
      (db.flags.filter (fun flag =>
        flag.placement_start == none && flag.tick == control.current_tick &&
          flag.service_id == service_id)).flatMap
        (fun flag =>
          (db.teams.filter (fun team => team.user_id == flag.protecting_team_id)).map
            (fun team => (flag, team)))

/-- The rows actually fetched by `get_new_tasks`: the join result,
reordered by `ORDER BY RANDOM()` (the explicit `shuffle` argument) and cut
to `task_count` by `LIMIT`. -/
def selRows (db : GameDB) (service_id : Nat) (task_count : Nat)
    (shuffle : List (Flag × Team) → List (Flag × Team)) : List (Flag × Team) :=
  (shuffle (joinRows db service_id)).take task_count

/-- The record `get_new_tasks` builds for each fetched row (database.py
lines 134-138). -/
structure Task where
  team_id : Nat
  team_net_no : Nat
  tick : Int
  deriving Repr, DecidableEq

/-- The UPDATE loop of `get_new_tasks` (database.py lines 130-132): mark
`placement_start = NOW()` on every flag whose id is among the fetched
rows' flag ids. -/
def markFlags (flags : List Flag) (rows : List (Flag × Team)) (now : Int) : List Flag :=
  flags.map (fun flag =>
    if rows.any (fun row => row.1.id == flag.id) then
      { flag with placement_start := some now }
    else flag)

/-- Embeds `get_new_tasks` (database.py lines 112-138): fetch up to `task_count`
random open tasks of the service at the current tick, mark them as in
progress in the same transaction, and return team id, team net number and
tick for each. -/
def get_new_tasks (db : GameDB) (service_id : Nat) (task_count : Nat)
    (shuffle : List (Flag × Team) → List (Flag × Team)) (now : Int) :
    List Task × GameDB :=
  let rows := selRows db service_id task_count shuffle
  (rows.map (fun row =>
      { team_id := row.1.protecting_team_id
        team_net_no := row.2.net_number
        tick := row.1.tick }),
    { db with flags := markFlags db.flags rows now })

/-- The write phase of `commit_result` (database.py lines 157-166) once a
team id is known: append one `scoring_statuscheck` row and set
`placement_end = NOW()` on every flag matching the
(service, team, tick) triple — with no guard on the previous value of
`placement_end`. -/
def commitWith (db : GameDB) (service_id team_id : Nat) (tick result now : Int) :
    GameDB :=
  { db with
    statuschecks := db.statuschecks ++
      [{ service_id := service_id, team_id := team_id, tick := tick,
         status := result, timestamp := now }]
    flags := db.flags.map (fun flag =>
      if flag.service_id == service_id && flag.protecting_team_id == team_id &&
          flag.tick == tick then
        { flag with placement_end := some now }
      else flag) }

/-- Embeds `commit_result` (database.py lines 141-166): resolve the team net
number; on failure fall back to `fake_team_id` when given, otherwise log
and return without touching the database; on success append the status
check row and close the matching flags. -/
def commit_result (db : GameDB) (service_id team_net_no : Nat) (tick result now : Int)
    (fake_team_id : Option Nat) : GameDB :=
  match db.teams.find? (fun team => team.net_number == team_net_no) with
  | none =>
      match fake_team_id with
      | none => db
      | some team_id => commitWith db service_id team_id tick result now
  | some team => commitWith db service_id team.user_id tick result now

/-- Whether a `checkerstate` row carries the given key: the WHERE clause
shared by `load_state`'s SELECT and `store_state`'s ON CONFLICT target. -/
def stateKeyMatches (service_id team_net_no : Nat) (identifier : String)
    (row : StateRow) : Bool :=
  row.service_id == service_id && row.team_net_no == team_net_no &&
    row.identifier == identifier

/-- Embeds `load_state` (database.py lines 169-183): return the blob stored
under `(service_id, team_net_no, identifier)`, or `none` when no row has
that key. -/
def load_state (sdb : StateDB) (service_id team_net_no : Nat) (identifier : String) :
    Option (List Nat) :=
  (List.find? (stateKeyMatches service_id team_net_no identifier) sdb).map StateRow.data

/-- Embeds `store_state` (database.py lines 186-197): `INSERT ... ON CONFLICT
(service_id, team_net_no, identifier) DO UPDATE SET data = EXCLUDED.data`
— overwrite the row in place when the key exists, insert a fresh row
otherwise. -/
def store_state (sdb : StateDB) (service_id team_net_no : Nat) (identifier : String)
    (data : List Nat) : StateDB :=
  if List.any sdb (stateKeyMatches service_id team_net_no identifier) then
    List.map (fun row =>
      if stateKeyMatches service_id team_net_no identifier row then
        { row with data := data }
      else row) sdb
  else
    sdb ++ [{ service_id := service_id, team_net_no := team_net_no,
              identifier := identifier, data := data }]

/-- Errors a database call can surface. -/
inductive DBError
  | authorization
  deriving Repr, DecidableEq

/-- Modelled from the spec: `transaction_cursor`'s `prohibit_changes` mode
lives in `ctf_gameserver.lib.database`, which is not among the sources
here; per the spec, in read-restricted mode any statement that mutates
state "must fail with an authorization error rather than silently
succeeding or silently skipping", and all multi-step mutations are
all-or-nothing, so a failed transaction leaves the store unchanged while
plain reads still succeed.  `get_new_tasks` with `prohibit_changes` fails
at its `SELECT ... FOR UPDATE` (a row-locking, write-intent statement). -/
def get_new_tasksP (prohibit_changes : Bool) (db : GameDB) (service_id : Nat)
    (task_count : Nat) (shuffle : List (Flag × Team) → List (Flag × Team))
    (now : Int) : GameDB × Except DBError (List Task) :=
  if prohibit_changes then
    (db, Except.error DBError.authorization)
  else
    let out := get_new_tasks db service_id task_count shuffle now
    (out.2, Except.ok out.1)

/-- Modelled from the spec (see `get_new_tasksP`): `commit_result` under
`prohibit_changes`.  The team lookup SELECT is a plain read and succeeds;
when it resolves no team and no `fake_team_id` was given the function
returns before reaching any mutating statement, so no error is raised;
otherwise the INSERT is refused with an authorization error and the
transaction rolls back. -/
def commit_resultP (prohibit_changes : Bool) (db : GameDB)
    (service_id team_net_no : Nat) (tick result now : Int)
    (fake_team_id : Option Nat) : GameDB × Except DBError Unit :=
  match db.teams.find? (fun team => team.net_number == team_net_no) with
  | none =>
      match fake_team_id with
      | none => (db, Except.ok ())
      | some team_id =>
          if prohibit_changes then
            (db, Except.error DBError.authorization)
          else
            (commitWith db service_id team_id tick result now, Except.ok ())
  | some team =>
      if prohibit_changes then
        (db, Except.error DBError.authorization)
      else
        (commitWith db service_id team.user_id tick result now, Except.ok ())

/-- Modelled from the spec (see `get_new_tasksP`): `store_state` under
`prohibit_changes` — its INSERT is refused with an authorization error
even when the upsert would not change any data. -/
def store_stateP (prohibit_changes : Bool) (sdb : StateDB)
    (service_id team_net_no : Nat) (identifier : String) (data : List Nat) :
    StateDB × Except DBError Unit :=
  if prohibit_changes then
    (sdb, Except.error DBError.authorization)
  else
    (store_state sdb service_id team_net_no identifier data, Except.ok ())

/-- The new flag rows minted for one tick: one per (service, team) pair,
with consecutive ids and both timestamps null. -/
def mintFlags (nextId : Nat) (newTick : Int) : List (Nat × Nat) → List Flag
  | [] => []
  | (service_id, team_id) :: rest =>
      { id := nextId, service_id := service_id, protecting_team_id := team_id,
        tick := newTick, placement_start := none, placement_end := none } ::
        mintFlags (nextId + 1) newTick rest

/-- All (service id, team id) pairs, service-major. -/
def servicePairs (db : GameDB) : List (Nat × Nat) :=
  db.services.flatMap (fun service =>
    db.teams.map (fun team => (service.id, team.user_id)))

/-- Modelled from the spec: `controller.main_loop_step` (module
`ctf_gameserver.controller.controller` is not among the sources here;
only its tests are).  One scheduler step: given the wall clock `now` and
the `nonstop` flag it returns the new store and the list of sleep
durations performed, following the spec's decision rules 1-7 — not
configured or before start: sleep 60; permitted and overdue: advance
`current_tick` by exactly one, mint one WorkItem per (service, team)
pair at the new tick, sleep 0; permitted and not due: sleep until the
next tick boundary; not permitted: sleep 0 then 60. -/
def main_loop_step (db : GameDB) (now : Int) (nonstop : Bool) : GameDB × List Int :=
  match db.control with
  | none => (db, [60])
  | some control =>
      if now < control.start then
        (db, [60])
      else
        let elapsed := now - control.start
        let target := elapsed / control.tick_duration
        let permitted := nonstop ||
          decide (now < control.start + control.valid_ticks * control.tick_duration)
        if permitted then
          if control.current_tick < target then
            let newTick := control.current_tick + 1
            let pairs := servicePairs db
            ({ db with
                control := some { control with current_tick := newTick }
                flags := db.flags ++ mintFlags db.next_flag_id newTick pairs
                next_flag_id := db.next_flag_id + pairs.length }, [0])
          else
            (db, [(control.current_tick + 1) * control.tick_duration - elapsed])
        else
          (db, [0, 60])

/-! ## Spec-side definitions for refinement claims -/

/-- Follows the spec's words for `countOpen`: "the number of
currently-open WorkItems for the service at the current tick"
(currently-open meaning `claimedAt` null). -/
def openTaskCount_spec (db : GameDB) (service_id : Nat) : Nat :=
  match db.control with
  | none => 0
  | some control =>
      (db.flags.filter (fun flag =>
        flag.placement_start == none && flag.tick == control.current_tick &&
          flag.service_id == service_id)).length

/-- The number of already-claimed tasks of the service at the current
tick. -/
def claimedTaskCount (db : GameDB) (service_id : Nat) : Nat :=
  match db.control with
  | none => 0
  | some control =>
      (db.flags.filter (fun flag =>
        !(flag.placement_start == none) && flag.tick == control.current_tick &&
          flag.service_id == service_id)).length

/-! ## Helper lemmas -/

lemma length_filter_split {α : Type} (l : List α) (p q : α → Bool) :
    (l.filter p).length =
      (l.filter (fun a => p a && q a)).length +
        (l.filter (fun a => p a && !q a)).length := by
  induction l with
  | nil => simp
  | cons a l ih =>
      by_cases hp : p a <;> by_cases hq : q a <;>
        simp [List.filter_cons, hp, hq, ih] <;> omega

/-- A database with a claimed flag at the current tick: `get_task_count`
counts it, the spec's "currently-open" count does not. -/
def c3DB : GameDB :=
  { control := some { start := 0, valid_ticks := 480, tick_duration := 180,
                      current_tick := 0 }
    services := [{ id := 1, name := "service1", slug := "service1" }]
    teams := [{ user_id := 4, net_number := 101 }]
    flags := [{ id := 1, service_id := 1, protecting_team_id := 4, tick := 0,
                placement_start := some 5, placement_end := none }]
    statuschecks := []
    next_flag_id := 2 }

/-- C3 counterexample: the claim says `get_task_count` returns the number
of currently-open (claimedAt null) WorkItems of the service at the current
tick; on a store whose only current-tick flag is already claimed,
`get_task_count` returns 1 while the open count is 0. -/
theorem get_task_count_ne_open_spec : get_task_count c3DB 1 ≠ openTaskCount_spec c3DB 1 := by
  decide

/-- C3 (amended): `get_task_count` returns the number of all WorkItems of
the service at the current tick, claimed or not — the open count plus the
claimed count. -/
theorem get_task_count_eq_open_add_claimed (db : GameDB) (service_id : Nat) :
    get_task_count db service_id =
      openTaskCount_spec db service_id + claimedTaskCount db service_id := by
  cases hctl : db.control with
  | none => simp [get_task_count, openTaskCount_spec, claimedTaskCount, hctl]
  | some control =>
      simp only [get_task_count, openTaskCount_spec, claimedTaskCount, hctl]
      have hsplit := length_filter_split db.flags
        (fun flag => flag.tick == control.current_tick && flag.service_id == service_id)
        (fun flag => flag.placement_start == none)
      rw [hsplit]
      have hopen : db.flags.filter
          (fun flag => (flag.tick == control.current_tick && flag.service_id == service_id) &&
            (flag.placement_start == none)) =
          db.flags.filter (fun flag => flag.placement_start == none &&
            flag.tick == control.current_tick && flag.service_id == service_id) := by
        apply List.filter_congr
        intro flag _
        cases flag.placement_start == none <;>
          cases flag.tick == control.current_tick <;>
            cases flag.service_id == service_id <;> rfl
      have hclaimed : db.flags.filter
          (fun flag => (flag.tick == control.current_tick && flag.service_id == service_id) &&
            !(flag.placement_start == none)) =
          db.flags.filter (fun flag => !(flag.placement_start == none) &&
            flag.tick == control.current_tick && flag.service_id == service_id) := by
        apply List.filter_congr
        intro flag _
        cases flag.placement_start == none <;>
          cases flag.tick == control.current_tick <;>
            cases flag.service_id == service_id <;> rfl
      rw [hopen, hclaimed]

/-- Whether a flag matches a (service, team, tick) commit triple. -/
def tripleMatches (service_id team_id : Nat) (tick : Int) (flag : Flag) : Prop :=
  flag.service_id = service_id ∧ flag.protecting_team_id = team_id ∧ flag.tick = tick

instance (service_id team_id : Nat) (tick : Int) (flag : Flag) :
    Decidable (tripleMatches service_id team_id tick flag) := by
  unfold tripleMatches
  infer_instance

/-- C5: `commit_result` with a team net number that resolves to no team:
with a fallback id it appends exactly one status check row under the
fallback id and closes exactly the flags matching the fallback triple;
with no fallback it leaves the database completely unchanged. -/
theorem commit_result_unresolvable_team (db : GameDB) (service_id team_net_no : Nat)
    (tick result now : Int) (fallback_id : Nat)
    (hno : ∀ team ∈ db.teams, team.net_number ≠ team_net_no) :
    (commit_result db service_id team_net_no tick result now (some fallback_id)).statuschecks
        = db.statuschecks ++
            [{ service_id := service_id, team_id := fallback_id, tick := tick,
               status := result, timestamp := now }]
    ∧ List.Forall₂ (fun flag flag' =>
        (tripleMatches service_id fallback_id tick flag →
          flag' = { flag with placement_end := some now })
        ∧ (¬tripleMatches service_id fallback_id tick flag → flag' = flag))
        db.flags
        (commit_result db service_id team_net_no tick result now (some fallback_id)).flags
    ∧ commit_result db service_id team_net_no tick result now none = db := by
  have hfind : db.teams.find? (fun team => team.net_number == team_net_no) = none := by
    rw [List.find?_eq_none]
    intro team hteam
    simpa using hno team hteam
  refine ⟨?_, ?_, ?_⟩
  · simp [commit_result, hfind, commitWith]
  · simp only [commit_result, hfind, commitWith]
    rw [List.forall₂_map_right_iff, List.forall₂_same]
    intro flag _
    by_cases hm : tripleMatches service_id fallback_id tick flag
    · obtain ⟨h1, h2, h3⟩ := hm
      refine ⟨fun _ => ?_, fun hn => absurd ⟨h1, h2, h3⟩ hn⟩
      simp [h1, h2, h3]
    · refine ⟨fun h => absurd h hm, fun _ => ?_⟩
      rw [if_neg]
      simp only [Bool.and_eq_true, beq_iff_eq, not_and]
      unfold tripleMatches at hm
      intro h1 h2
      exact hm ⟨h1.1, h1.2, h2⟩
  · simp [commit_result, hfind]

/-- A database used to exercise `commit_result_unresolvable_team` at a
concrete input: one team with net number 101, one open flag. -/
def c5DB : GameDB :=
  { control := some { start := 0, valid_ticks := 480, tick_duration := 180,
                      current_tick := 0 }
    services := [{ id := 1, name := "service1", slug := "service1" }]
    teams := [{ user_id := 4, net_number := 101 }]
    flags := [{ id := 1, service_id := 1, protecting_team_id := 4, tick := 0,
                placement_start := some 5, placement_end := none }]
    statuschecks := []
    next_flag_id := 2 }

/-- Witness for C5 at net number 999 (unknown) with fallback team id 4. -/
theorem commit_result_unresolvable_team_witness :
    (∀ team ∈ c5DB.teams, team.net_number ≠ 999)
    ∧ ((commit_result c5DB 1 999 0 7 9 (some 4)).statuschecks
          = c5DB.statuschecks ++
              [{ service_id := 1, team_id := 4, tick := 0, status := 7, timestamp := 9 }]
      ∧ List.Forall₂ (fun flag flag' =>
          (tripleMatches 1 4 0 flag → flag' = { flag with placement_end := some 9 })
          ∧ (¬tripleMatches 1 4 0 flag → flag' = flag))
          c5DB.flags (commit_result c5DB 1 999 0 7 9 (some 4)).flags
      ∧ commit_result c5DB 1 999 0 7 9 none = c5DB) :=
  ⟨by decide, commit_result_unresolvable_team c5DB 1 999 0 7 9 4 (by decide)⟩

/-- Updating a row's data does not change whether its key matches. -/
lemma stateKeyMatches_set_data (service_id team_net_no : Nat) (identifier : String)
    (row : StateRow) (blob : List Nat) :
    stateKeyMatches service_id team_net_no identifier { row with data := blob } =
      stateKeyMatches service_id team_net_no identifier row := rfl

/-- C6: storing under a key and loading it back returns exactly the stored
blob (also when the key already existed — overwrite in place); loading a
key no row carries returns the `none` sentinel; the upsert keeps at most
one live row per key (exactly one after a store). -/
theorem store_load_roundtrip (sdb : StateDB) (service_id team_net_no : Nat)
    (identifier : String) (blob : List Nat) :
    load_state (store_state sdb service_id team_net_no identifier blob)
        service_id team_net_no identifier = some blob
    ∧ ((∀ row ∈ sdb, stateKeyMatches service_id team_net_no identifier row = false) →
        load_state sdb service_id team_net_no identifier = none)
    ∧ (sdb.countP (stateKeyMatches service_id team_net_no identifier) ≤ 1 →
        (store_state sdb service_id team_net_no identifier blob).countP
          (stateKeyMatches service_id team_net_no identifier) = 1) := by
  refine ⟨?_, ?_, ?_⟩
  · unfold store_state
    by_cases hany : List.any sdb (stateKeyMatches service_id team_net_no identifier)
    · rw [if_pos hany]
      unfold load_state
      induction sdb with
      | nil => simp at hany
      | cons row rest ih =>
          by_cases hk : stateKeyMatches service_id team_net_no identifier row
          · simp [List.find?_cons, hk, stateKeyMatches_set_data]
          · have hrest : List.any rest (stateKeyMatches service_id team_net_no identifier) := by
              simpa [hk] using hany
            simpa [List.find?_cons, hk, stateKeyMatches_set_data] using ih hrest
    · rw [if_neg hany]
      unfold load_state
      rw [List.find?_append]
      rw [Bool.not_eq_true] at hany
      have hnone : List.find? (stateKeyMatches service_id team_net_no identifier) sdb = none := by
        rw [List.find?_eq_none]
        exact List.any_eq_false.mp hany
      rw [hnone]
      simp [stateKeyMatches]
  · intro hnever
    unfold load_state
    have hnone : List.find? (stateKeyMatches service_id team_net_no identifier) sdb = none := by
      rw [List.find?_eq_none]
      intro row hrow
      simp [hnever row hrow]
    rw [hnone]
    rfl
  · intro hle
    unfold store_state
    by_cases hany : List.any sdb (stateKeyMatches service_id team_net_no identifier)
    · rw [if_pos hany]
      rw [List.countP_map]
      have hsame : List.countP
          ((stateKeyMatches service_id team_net_no identifier) ∘ fun row =>
            if stateKeyMatches service_id team_net_no identifier row then
              { row with data := blob }
            else row) sdb =
          List.countP (stateKeyMatches service_id team_net_no identifier) sdb := by
        apply List.countP_congr
        intro row _
        by_cases hk : stateKeyMatches service_id team_net_no identifier row <;>
          simp [hk, stateKeyMatches_set_data]
      rw [hsame]
      have hpos : 0 < List.countP (stateKeyMatches service_id team_net_no identifier) sdb := by
        rw [List.countP_pos_iff]
        obtain ⟨row, hrow, hk⟩ := List.any_eq_true.mp hany
        exact ⟨row, hrow, hk⟩
      omega
    · rw [if_neg hany]
      rw [List.countP_append]
      rw [Bool.not_eq_true] at hany
      have hzero : List.countP (stateKeyMatches service_id team_net_no identifier) sdb = 0 := by
        rw [List.countP_eq_zero]
        exact List.any_eq_false.mp hany
      rw [hzero]
      simp [stateKeyMatches]

/-- A state database holding one row under a key other than
`(1, 101, "flagid")`. -/
def c6SDB : StateDB :=
  [{ service_id := 2, team_net_no := 102, identifier := "other", data := [9] }]

/-- Witness for C6: on `c6SDB`, store then load under the fresh key
`(1, 101, "flagid")` round-trips, that key loads `none` beforehand, and
the row count under the key becomes one. -/
theorem store_load_roundtrip_witness :
    (load_state (store_state c6SDB 1 101 "flagid" [1, 2, 3]) 1 101 "flagid" = some [1, 2, 3]
    ∧ ((∀ row ∈ c6SDB, stateKeyMatches 1 101 "flagid" row = false) →
        load_state c6SDB 1 101 "flagid" = none)
    ∧ (List.countP (stateKeyMatches 1 101 "flagid") c6SDB ≤ 1 →
        List.countP (stateKeyMatches 1 101 "flagid")
          (store_state c6SDB 1 101 "flagid" [1, 2, 3]) = 1)) :=
  store_load_roundtrip c6SDB 1 101 "flagid" [1, 2, 3]

lemma mintFlags_length (nextId : Nat) (newTick : Int) (pairs : List (Nat × Nat)) :
    (mintFlags nextId newTick pairs).length = pairs.length := by
  induction pairs generalizing nextId with
  | nil => rfl
  | cons p rest ih =>
      cases p with
      | mk a b => simp [mintFlags, ih]

lemma mintFlags_map_pair (nextId : Nat) (newTick : Int) (pairs : List (Nat × Nat)) :
    (mintFlags nextId newTick pairs).map
      (fun flag => (flag.service_id, flag.protecting_team_id)) = pairs := by
  induction pairs generalizing nextId with
  | nil => rfl
  | cons p rest ih =>
      cases p with
      | mk a b => simp [mintFlags, ih]

lemma mintFlags_tick (nextId : Nat) (newTick : Int) (pairs : List (Nat × Nat)) :
    ∀ flag ∈ mintFlags nextId newTick pairs, flag.tick = newTick := by
  induction pairs generalizing nextId with
  | nil => intro flag h; cases h
  | cons p rest ih =>
      cases p with
      | mk a b =>
          intro flag h
          rcases List.mem_cons.mp h with h | h
          · subst h; rfl
          · exact ih (nextId + 1) flag h

lemma pairs_flatMap_length (ss : List Service) (ts : List Team) :
    (ss.flatMap (fun s => ts.map (fun t => (s.id, t.user_id)))).length =
      ss.length * ts.length := by
  induction ss with
  | nil => simp
  | cons s rest ih => simp [ih, Nat.succ_mul, Nat.add_comm]

lemma servicePairs_length (db : GameDB) :
    (servicePairs db).length = db.services.length * db.teams.length :=
  pairs_flatMap_length db.services db.teams

/-- C1: when the competition is configured, `now` is at or past `start`,
advancing is permitted (`nonstop` or the window is still open) and
`current_tick` is behind the wall-clock-implied target, one scheduler step
advances `current_tick` by exactly one, appends exactly
`|services| * |teams|` new flags — one per (service, team) pair, all at
the new tick — and sleeps 0. -/
theorem main_loop_step_advances_one_tick (db : GameDB) (now : Int) (nonstop : Bool)
    (control : GameControl)
    (hctl : db.control = some control)
    (hstart : control.start ≤ now)
    (hperm : nonstop = true ∨
      now < control.start + control.valid_ticks * control.tick_duration)
    (htick : control.current_tick < (now - control.start) / control.tick_duration) :
    (main_loop_step db now nonstop).1.control
        = some { control with current_tick := control.current_tick + 1 }
    ∧ (main_loop_step db now nonstop).2 = [0]
    ∧ (main_loop_step db now nonstop).1.flags.length
        = db.flags.length + db.services.length * db.teams.length
    ∧ ((main_loop_step db now nonstop).1.flags.drop db.flags.length).map
        (fun flag => (flag.service_id, flag.protecting_team_id)) = servicePairs db
    ∧ ∀ flag ∈ (main_loop_step db now nonstop).1.flags.drop db.flags.length,
        flag.tick = control.current_tick + 1 := by
  have hnotlt : ¬ now < control.start := not_lt.mpr hstart
  have hpermb : (nonstop ||
      decide (now < control.start + control.valid_ticks * control.tick_duration)) = true := by
    rcases hperm with h | h <;> simp [h]
  simp only [main_loop_step, hctl]
  rw [if_neg hnotlt]
  simp only [hpermb, if_true]
  rw [if_pos htick]
  refine ⟨rfl, rfl, ?_, ?_, ?_⟩
  · simp [mintFlags_length, servicePairs_length]
  · rw [List.drop_left, mintFlags_map_pair]
  · rw [List.drop_left]
    exact mintFlags_tick _ _ _

/-- The competition control row used in the scheduler witnesses. -/
def c1Control : GameControl :=
  { start := 0, valid_ticks := 480, tick_duration := 180, current_tick := -1 }

/-- A configured database before the first tick: two services, three
teams, no flags yet. -/
def c1DB : GameDB :=
  { control := some c1Control
    services := [{ id := 1, name := "service1", slug := "service1" },
                 { id := 2, name := "service2", slug := "service2" }]
    teams := [{ user_id := 3, net_number := 101 },
              { user_id := 4, net_number := 102 },
              { user_id := 5, net_number := 103 }]
    flags := []
    statuschecks := []
    next_flag_id := 0 }

/-- Witness for C1: the first tick at `now = start` mints one flag per
(service, team) pair and sleeps 0. -/
theorem main_loop_step_advances_one_tick_witness :
    (c1DB.control = some c1Control
      ∧ c1Control.start ≤ 0
      ∧ (false = true ∨
          (0 : Int) < c1Control.start + c1Control.valid_ticks * c1Control.tick_duration)
      ∧ c1Control.current_tick < ((0 : Int) - c1Control.start) / c1Control.tick_duration)
    ∧ ((main_loop_step c1DB 0 false).1.control
          = some { c1Control with current_tick := c1Control.current_tick + 1 }
      ∧ (main_loop_step c1DB 0 false).2 = [0]
      ∧ (main_loop_step c1DB 0 false).1.flags.length
          = c1DB.flags.length + c1DB.services.length * c1DB.teams.length
      ∧ ((main_loop_step c1DB 0 false).1.flags.drop c1DB.flags.length).map
          (fun flag => (flag.service_id, flag.protecting_team_id)) = servicePairs c1DB
      ∧ ∀ flag ∈ (main_loop_step c1DB 0 false).1.flags.drop c1DB.flags.length,
          flag.tick = c1Control.current_tick + 1) :=
  ⟨⟨rfl, by decide, Or.inr (by decide), by decide⟩,
    main_loop_step_advances_one_tick c1DB 0 false c1Control rfl (by decide)
      (Or.inr (by decide)) (by decide)⟩

/-- C7: once the window has closed (`now` at or past
`start + valid_ticks * tick_duration`) and `nonstop` is false, a scheduler
step performs exactly the two waits 0 then 60, in that order, and leaves
the database untouched (no tick advance, no new flags) — and since the
store is unchanged, iterating the step any number of times stays in this
state, so the two-stage wait happens on every such call. -/
theorem main_loop_step_after_game (db : GameDB) (now : Int) (control : GameControl)
    (hctl : db.control = some control)
    (hstart : control.start ≤ now)
    (hclosed : control.start + control.valid_ticks * control.tick_duration ≤ now) :
    main_loop_step db now false = (db, [0, 60])
    ∧ ∀ k : Nat, (fun d => (main_loop_step d now false).1)^[k] db = db := by
  have hnotlt : ¬ now < control.start := not_lt.mpr hstart
  have hpermb : decide
      (now < control.start + control.valid_ticks * control.tick_duration) = false :=
    decide_eq_false (not_lt.mpr hclosed)
  have hstep : main_loop_step db now false = (db, [0, 60]) := by
    simp only [main_loop_step, hctl]
    rw [if_neg hnotlt]
    simp [hpermb]
  refine ⟨hstep, ?_⟩
  intro k
  induction k with
  | zero => rfl
  | succ k ih =>
      rw [Function.iterate_succ_apply]
      simp only [hstep]
      exact ih

/-- The competition control row of `c7DB`: at the final tick of a
480-tick, 180-second-tick competition starting at 0. -/
def c7Control : GameControl :=
  { start := 0, valid_ticks := 480, tick_duration := 180, current_tick := 479 }

/-- A database one minute past the competition end, at the final tick. -/
def c7DB : GameDB :=
  { c1DB with control := some c7Control }

/-- Witness for C7 at `now = 86460`, one minute past the 86400-second
window of `c7DB`. -/
theorem main_loop_step_after_game_witness :
    (c7DB.control = some c7Control
      ∧ c7Control.start ≤ 86460
      ∧ c7Control.start + c7Control.valid_ticks * c7Control.tick_duration ≤ 86460)
    ∧ (main_loop_step c7DB 86460 false = (c7DB, [0, 60])
      ∧ ∀ k : Nat, (fun d => (main_loop_step d 86460 false).1)^[k] c7DB = c7DB) :=
  ⟨⟨rfl, by decide, by decide⟩,
    main_loop_step_after_game c7DB 86460 c7Control rfl (by decide) (by decide)⟩

/-- Membership in the join underlying `get_new_tasks`: a fetched row
pairs an open flag of the service at the current tick with its team. -/
lemma mem_joinRows {db : GameDB} {service_id : Nat} {row : Flag × Team}
    (h : row ∈ joinRows db service_id) :
    ∃ control, db.control = some control
      ∧ row.1 ∈ db.flags ∧ row.1.placement_start = none
      ∧ row.1.tick = control.current_tick ∧ row.1.service_id = service_id
      ∧ row.2 ∈ db.teams ∧ row.2.user_id = row.1.protecting_team_id := by
  cases hctl : db.control with
  | none =>
      unfold joinRows at h
      rw [hctl] at h
      cases h
  | some control =>
      unfold joinRows at h
      rw [hctl] at h
      simp only [List.mem_flatMap, List.mem_map, List.mem_filter] at h
      obtain ⟨flag, ⟨hfmem, hfprop⟩, team, ⟨htmem, htprop⟩, heq⟩ := h
      subst heq
      simp only [Bool.and_eq_true, beq_iff_eq] at hfprop htprop
      exact ⟨control, rfl, hfmem, hfprop.1.1, hfprop.1.2, hfprop.2, htmem, htprop⟩

/-- A row actually fetched by `get_new_tasks` comes from the join, as
long as `ORDER BY RANDOM()` merely reorders the rows. -/
lemma mem_selRows {db : GameDB} {service_id task_count : Nat}
    {shuffle : List (Flag × Team) → List (Flag × Team)} {row : Flag × Team}
    (hperm : (shuffle (joinRows db service_id)).Perm (joinRows db service_id))
    (h : row ∈ selRows db service_id task_count shuffle) :
    row ∈ joinRows db service_id :=
  hperm.mem_iff.mp (List.take_subset _ _ h)

/-- C2: `get_new_tasks` returns at most `task_count` records; each comes
from a flag that was open (claimedAt null) for the requested service at
selection time, carries that flag's team id, team net number and tick,
and the flag is marked claimed (`placement_start = now`) in the resulting
database — selection and marking happen in the same transaction. -/
theorem get_new_tasks_claims_open_tasks (db : GameDB) (service_id task_count : Nat)
    (shuffle : List (Flag × Team) → List (Flag × Team)) (now : Int)
    (hperm : (shuffle (joinRows db service_id)).Perm (joinRows db service_id)) :
    (get_new_tasks db service_id task_count shuffle now).1.length ≤ task_count
    ∧ ∀ task ∈ (get_new_tasks db service_id task_count shuffle now).1,
        ∃ flag ∈ db.flags, ∃ team ∈ db.teams,
          flag.placement_start = none ∧ flag.service_id = service_id
          ∧ team.user_id = flag.protecting_team_id
          ∧ task.team_id = flag.protecting_team_id
          ∧ task.team_net_no = team.net_number ∧ task.tick = flag.tick
          ∧ ∀ flag' ∈ (get_new_tasks db service_id task_count shuffle now).2.flags,
              flag'.id = flag.id → flag'.placement_start = some now := by
  constructor
  · simp only [get_new_tasks, selRows]
    rw [List.length_map]
    exact List.length_take_le _ _
  · intro task htask
    simp only [get_new_tasks, List.mem_map] at htask
    obtain ⟨row, hrow, htask⟩ := htask
    obtain ⟨control, hctl, hfmem, hopen, _, hsid, htmem, htid⟩ :=
      mem_joinRows (mem_selRows hperm hrow)
    refine ⟨row.1, hfmem, row.2, htmem, hopen, hsid, htid, ?_, ?_, ?_, ?_⟩
    · rw [← htask]
    · rw [← htask]
    · rw [← htask]
    · intro flag' hf' hid
      simp only [get_new_tasks, markFlags, List.mem_map] at hf'
      obtain ⟨flag0, hf0, hflag'⟩ := hf'
      have hid0 : flag'.id = flag0.id := by
        by_cases hc : (selRows db service_id task_count shuffle).any
            (fun r => r.1.id == flag0.id) <;> simp [hc] at hflag' <;> rw [← hflag']
      have hany : (selRows db service_id task_count shuffle).any
          (fun r => r.1.id == flag0.id) = true := by
        rw [List.any_eq_true]
        refine ⟨row, hrow, ?_⟩
        rw [beq_iff_eq, ← hid0, hid]
      rw [← hflag']
      simp [hany]

/-- A database with one open flag at the current tick, used as the
concrete input of the `get_new_tasks` witnesses. -/
def c2DB : GameDB :=
  { control := some { start := 0, valid_ticks := 480, tick_duration := 180,
                      current_tick := 0 }
    services := [{ id := 1, name := "service1", slug := "service1" }]
    teams := [{ user_id := 4, net_number := 101 }]
    flags := [{ id := 1, service_id := 1, protecting_team_id := 4, tick := 0,
                placement_start := none, placement_end := none }]
    statuschecks := []
    next_flag_id := 2 }

/-- Witness for C2 on `c2DB` with the identity reordering. -/
theorem get_new_tasks_claims_open_tasks_witness :
    (id (joinRows c2DB 1)).Perm (joinRows c2DB 1)
    ∧ ((get_new_tasks c2DB 1 3 id 7).1.length ≤ 3
      ∧ ∀ task ∈ (get_new_tasks c2DB 1 3 id 7).1,
          ∃ flag ∈ c2DB.flags, ∃ team ∈ c2DB.teams,
            flag.placement_start = none ∧ flag.service_id = 1
            ∧ team.user_id = flag.protecting_team_id
            ∧ task.team_id = flag.protecting_team_id
            ∧ task.team_net_no = team.net_number ∧ task.tick = flag.tick
            ∧ ∀ flag' ∈ (get_new_tasks c2DB 1 3 id 7).2.flags,
                flag'.id = flag.id → flag'.placement_start = some 7) :=
  ⟨List.Perm.refl _, get_new_tasks_claims_open_tasks c2DB 1 3 id 7 (List.Perm.refl _)⟩

/-- C10: every record returned (and every flag claimed) by
`get_new_tasks` is at the stored current tick; flags from other ticks are
neither returned nor touched. -/
theorem get_new_tasks_current_tick_only (db : GameDB) (service_id task_count : Nat)
    (shuffle : List (Flag × Team) → List (Flag × Team)) (now : Int)
    (control : GameControl)
    (hctl : db.control = some control)
    (hperm : (shuffle (joinRows db service_id)).Perm (joinRows db service_id))
    (hid : (db.flags.map Flag.id).Nodup) :
    (∀ task ∈ (get_new_tasks db service_id task_count shuffle now).1,
        task.tick = control.current_tick)
    ∧ List.Forall₂ (fun flag flag' => flag.tick ≠ control.current_tick → flag' = flag)
        db.flags (get_new_tasks db service_id task_count shuffle now).2.flags := by
  constructor
  · intro task htask
    simp only [get_new_tasks, List.mem_map] at htask
    obtain ⟨row, hrow, htask⟩ := htask
    obtain ⟨control', hctl', _, _, htick, _, _, _⟩ :=
      mem_joinRows (mem_selRows hperm hrow)
    rw [hctl] at hctl'
    cases hctl'
    rw [← htask]
    exact htick
  · simp only [get_new_tasks, markFlags]
    rw [List.forall₂_map_right_iff, List.forall₂_same]
    intro flag hmem htick
    by_cases hc : (selRows db service_id task_count shuffle).any
        (fun r => r.1.id == flag.id)
    · exfalso
      obtain ⟨row, hrow, hbeq⟩ := List.any_eq_true.mp hc
      obtain ⟨control', hctl', hfmem, _, htick', _, _, _⟩ :=
        mem_joinRows (mem_selRows hperm hrow)
      rw [hctl] at hctl'
      cases hctl'
      have : row.1 = flag := List.inj_on_of_nodup_map hid hfmem hmem (beq_iff_eq.mp hbeq)
      rw [this] at htick'
      exact htick htick'
    · simp [hc]

/-- Witness for C10 on `c2DB` with the identity reordering. -/
theorem get_new_tasks_current_tick_only_witness :
    (c2DB.control = some { start := 0, valid_ticks := 480, tick_duration := 180,
                           current_tick := 0 }
      ∧ (id (joinRows c2DB 1)).Perm (joinRows c2DB 1)
      ∧ (c2DB.flags.map Flag.id).Nodup)
    ∧ ((∀ task ∈ (get_new_tasks c2DB 1 3 id 7).1, task.tick = (0 : Int))
      ∧ List.Forall₂ (fun flag flag' => flag.tick ≠ (0 : Int) → flag' = flag)
          c2DB.flags (get_new_tasks c2DB 1 3 id 7).2.flags) :=
  ⟨⟨rfl, List.Perm.refl _, by decide⟩,
    get_new_tasks_current_tick_only c2DB 1 3 id 7
      { start := 0, valid_ticks := 480, tick_duration := 180, current_tick := 0 }
      rfl (List.Perm.refl _) (by decide)⟩

/-- C9 counterexample: `commit_result` called in read-restricted mode
with a team net number that resolves to no team and no fallback id
returns successfully and silently — its early return happens before any
mutating statement, so no authorization error is raised.  (`c2DB`'s only
team has net number 101.) -/
theorem commit_resultP_silent_noop :
    commit_resultP true c2DB 1 999 0 0 7 none = (c2DB, Except.ok ()) := rfl

/-- C9 (amended): in read-restricted mode (`prohibit_changes` true) every
operation that reaches a mutating statement fails with an authorization
error and leaves the store unchanged — `get_new_tasks` at its
`SELECT ... FOR UPDATE`, `store_state` at its INSERT, and `commit_result`
whenever a team id is resolved (directly or via the fallback).  The one
exception is `commit_result` with an unresolvable net number and no
fallback, which silently returns with the store unchanged (see
`commit_resultP_silent_noop`). -/
theorem prohibit_changes_blocks_mutations :
    (∀ (db : GameDB) (service_id task_count : Nat)
        (shuffle : List (Flag × Team) → List (Flag × Team)) (now : Int),
      get_new_tasksP true db service_id task_count shuffle now
        = (db, Except.error DBError.authorization))
    ∧ (∀ (sdb : StateDB) (service_id team_net_no : Nat) (identifier : String)
        (data : List Nat),
      store_stateP true sdb service_id team_net_no identifier data
        = (sdb, Except.error DBError.authorization))
    ∧ ∀ (db : GameDB) (service_id team_net_no : Nat) (tick result now : Int)
        (fake_team_id : Option Nat),
      ((∃ team ∈ db.teams, team.net_number = team_net_no) ∨ fake_team_id ≠ none) →
      commit_resultP true db service_id team_net_no tick result now fake_team_id
        = (db, Except.error DBError.authorization) := by
  refine ⟨fun db service_id task_count shuffle now => rfl,
    fun sdb service_id team_net_no identifier data => rfl, ?_⟩
  intro db service_id team_net_no tick result now fake_team_id hres
  cases hfind : db.teams.find? (fun team => team.net_number == team_net_no) with
  | some team => simp [commit_resultP, hfind]
  | none =>
      rcases hres with ⟨team, hmem, hnet⟩ | hfake
      · exfalso
        have := List.find?_eq_none.mp hfind team hmem
        simp [hnet] at this
      · cases hfake' : fake_team_id with
        | none => exact absurd hfake' hfake
        | some fallback_id => simp [commit_resultP, hfind, hfake']

/-- Witness for the amended C9 at concrete inputs: all three operations
fail with the authorization error and return the store they were given.
(`c2DB`'s only team has net number 101.) -/
theorem prohibit_changes_blocks_mutations_witness :
    ((∃ team ∈ c2DB.teams, team.net_number = 101) ∨ (some 4 : Option Nat) ≠ none)
    ∧ get_new_tasksP true c2DB 1 3 id 7 = (c2DB, Except.error DBError.authorization)
    ∧ store_stateP true c6SDB 1 101 "flagid" [1]
        = (c6SDB, Except.error DBError.authorization)
    ∧ commit_resultP true c2DB 1 101 0 0 7 (some 4)
        = (c2DB, Except.error DBError.authorization) :=
  ⟨Or.inr (by decide),
    prohibit_changes_blocks_mutations.1 c2DB 1 3 id 7,
    prohibit_changes_blocks_mutations.2.1 c6SDB 1 101 "flagid" [1],
    prohibit_changes_blocks_mutations.2.2 c2DB 1 101 0 0 7 (some 4) (Or.inr (by decide))⟩

/-- A mutating operation of the work-distribution layer: a claim via
`get_new_tasks` or a commit via `commit_result`. -/
inductive DBOp where
  | claim (service_id task_count : Nat)
      (shuffle : List (Flag × Team) → List (Flag × Team)) (now : Int)
  | commit (service_id team_net_no : Nat) (tick result now : Int)
      (fake_team_id : Option Nat)

/-- Run one operation against the game database. -/
def applyOp (db : GameDB) : DBOp → GameDB
  | DBOp.claim service_id task_count shuffle now =>
      (get_new_tasks db service_id task_count shuffle now).2
  | DBOp.commit service_id team_net_no tick result now fake_team_id =>
      commit_result db service_id team_net_no tick result now fake_team_id

/-- Run a sequence of operations left to right. -/
def applyOps (db : GameDB) (ops : List DBOp) : GameDB :=
  ops.foldl applyOp db

/-- A well-formed operation: a claim's `ORDER BY RANDOM()` stage merely
reorders the fetched rows. -/
def GoodOp : DBOp → Prop
  | DBOp.claim _ _ shuffle _ => ∀ l, (shuffle l).Perm l
  | DBOp.commit _ _ _ _ _ _ => True

/-- The forward-only evolution of a flag's timestamps: `placement_start`
keeps any value it has, and `placement_end` never returns to null. -/
def FlagMono (flag flag' : Flag) : Prop :=
  (∀ t, flag.placement_start = some t → flag'.placement_start = some t)
  ∧ (flag.placement_end ≠ none → flag'.placement_end ≠ none)

lemma flagMono_refl (flag : Flag) : FlagMono flag flag :=
  ⟨fun _ h => h, fun h => h⟩

lemma flagMono_trans {a b c : Flag} (hab : FlagMono a b) (hbc : FlagMono b c) :
    FlagMono a c :=
  ⟨fun t h => hbc.1 t (hab.1 t h), fun h => hbc.2 (hab.2 h)⟩

lemma forall₂_flagMono_trans {l1 l2 l3 : List Flag}
    (h12 : List.Forall₂ FlagMono l1 l2) (h23 : List.Forall₂ FlagMono l2 l3) :
    List.Forall₂ FlagMono l1 l3 := by
  induction h12 generalizing l3 with
  | nil =>
      cases h23
      exact List.Forall₂.nil
  | cons hab hrest ih =>
      cases h23 with
      | cons hbc hrest2 => exact List.Forall₂.cons (flagMono_trans hab hbc) (ih hrest2)

lemma commitWith_flags_map_id (db : GameDB) (service_id team_id : Nat)
    (tick result now : Int) :
    (commitWith db service_id team_id tick result now).flags.map Flag.id =
      db.flags.map Flag.id := by
  simp only [commitWith, List.map_map]
  apply List.map_congr_left
  intro flag _
  simp only [Function.comp]
  split <;> rfl

/-- No operation inserts, deletes or renumbers flag rows: the id column
is untouched. -/
lemma applyOp_flags_map_id (db : GameDB) (op : DBOp) :
    (applyOp db op).flags.map Flag.id = db.flags.map Flag.id := by
  cases op with
  | claim service_id task_count shuffle now =>
      simp only [applyOp, get_new_tasks, markFlags, List.map_map]
      apply List.map_congr_left
      intro flag _
      by_cases hc : (selRows db service_id task_count shuffle).any
          (fun r => r.1.id == flag.id) <;> simp [hc]
  | commit service_id team_net_no tick result now fake_team_id =>
      cases hfind : db.teams.find? (fun team => team.net_number == team_net_no) with
      | some team => simp [applyOp, commit_result, hfind, commitWith_flags_map_id]
      | none =>
          cases fake_team_id with
          | none => simp [applyOp, commit_result, hfind]
          | some fallback_id => simp [applyOp, commit_result, hfind, commitWith_flags_map_id]

lemma commitWith_flagMono (db : GameDB) (service_id team_id : Nat)
    (tick result now : Int) :
    List.Forall₂ FlagMono db.flags
      (commitWith db service_id team_id tick result now).flags := by
  simp only [commitWith]
  rw [List.forall₂_map_right_iff, List.forall₂_same]
  intro flag _
  constructor
  · intro t h
    by_cases hc : (flag.service_id == service_id && flag.protecting_team_id == team_id &&
        flag.tick == tick) <;> simp [hc] <;> exact h
  · intro h
    by_cases hc : (flag.service_id == service_id && flag.protecting_team_id == team_id &&
        flag.tick == tick) <;> simp [hc]
    exact h

/-- One well-formed operation moves every flag forward in the `FlagMono`
order (positionally, so this holds row by row). -/
lemma applyOp_flagMono (db : GameDB) (op : DBOp)
    (hid : (db.flags.map Flag.id).Nodup) (hop : GoodOp op) :
    List.Forall₂ FlagMono db.flags (applyOp db op).flags := by
  cases op with
  | claim service_id task_count shuffle now =>
      simp only [applyOp, get_new_tasks, markFlags]
      rw [List.forall₂_map_right_iff, List.forall₂_same]
      intro flag hmem
      constructor
      · intro t h
        by_cases hc : (selRows db service_id task_count shuffle).any
            (fun r => r.1.id == flag.id)
        · exfalso
          obtain ⟨row, hrow, hbeq⟩ := List.any_eq_true.mp hc
          obtain ⟨control, _, hfmem, hopen, _, _, _, _⟩ :=
            mem_joinRows (mem_selRows (hop (joinRows db service_id)) hrow)
          have : row.1 = flag := List.inj_on_of_nodup_map hid hfmem hmem (beq_iff_eq.mp hbeq)
          rw [this, h] at hopen
          cases hopen
        · simp [hc]
          exact h
      · intro h
        by_cases hc : (selRows db service_id task_count shuffle).any
            (fun r => r.1.id == flag.id) <;> simp [hc] <;> exact h
  | commit service_id team_net_no tick result now fake_team_id =>
      cases hfind : db.teams.find? (fun team => team.net_number == team_net_no) with
      | some team =>
          simp only [applyOp, commit_result, hfind]
          exact commitWith_flagMono db service_id team.user_id tick result now
      | none =>
          cases fake_team_id with
          | none =>
              simp only [applyOp, commit_result, hfind]
              exact List.forall₂_same.mpr fun flag _ => flagMono_refl flag
          | some fallback_id =>
              simp only [applyOp, commit_result, hfind]
              exact commitWith_flagMono db service_id fallback_id tick result now

/-- C4 (amended): across any sequence of well-formed claim and commit
operations, each flag's `placement_start` keeps whatever value it has
once set and `placement_end` never goes back to null (neither field is
ever reset; `placement_start` is never overwritten).  `placement_end`
itself may be overwritten by a repeated commit — see the
counterexample. -/
theorem flag_timestamps_monotone (db : GameDB) (ops : List DBOp)
    (hid : (db.flags.map Flag.id).Nodup) (hops : ∀ op ∈ ops, GoodOp op) :
    List.Forall₂ FlagMono db.flags (applyOps db ops).flags := by
  induction ops generalizing db with
  | nil => exact List.forall₂_same.mpr fun flag _ => flagMono_refl flag
  | cons op rest ih =>
      have h1 := applyOp_flagMono db op hid (hops op (List.mem_cons_self op rest))
      have hid' : ((applyOp db op).flags.map Flag.id).Nodup := by
        rw [applyOp_flags_map_id]
        exact hid
      have h2 := ih (applyOp db op) hid' (fun o ho => hops o (List.mem_cons_of_mem _ ho))
      exact forall₂_flagMono_trans h1 (by simpa [applyOps] using h2)

/-- C4 counterexample: committing twice for the same (service, team,
tick) triple overwrites `placement_end`.  On `c2DB` (one open flag, team
net number 101) one commit at time 10 sets `closedAt = 10`; the same
commit repeated at time 20 changes it to 20, so a set `closedAt` is not
immutable. -/
theorem commit_result_overwrites_placement_end :
    (applyOps c2DB [DBOp.commit 1 101 0 0 10 none]).flags.map Flag.placement_end
        = [some 10]
    ∧ (applyOps c2DB [DBOp.commit 1 101 0 0 10 none,
        DBOp.commit 1 101 0 0 20 none]).flags.map Flag.placement_end
        = [some 20] :=
  ⟨rfl, rfl⟩

/-- Witness for the amended C4: a claim followed by a commit on `c2DB`. -/
theorem flag_timestamps_monotone_witness :
    ((c2DB.flags.map Flag.id).Nodup
      ∧ ∀ op ∈ [DBOp.claim 1 3 id 7, DBOp.commit 1 101 0 0 9 none], GoodOp op)
    ∧ List.Forall₂ FlagMono c2DB.flags
        (applyOps c2DB [DBOp.claim 1 3 id 7, DBOp.commit 1 101 0 0 9 none]).flags := by
  have hops : ∀ op ∈ [DBOp.claim 1 3 id 7, DBOp.commit 1 101 0 0 9 none], GoodOp op := by
    intro op hop
    rcases List.mem_cons.mp hop with h | h
    · subst h
      exact fun l => List.Perm.refl l
    · rcases List.mem_cons.mp h with h' | h'
      · subst h'
        trivial
      · cases h'
  exact ⟨⟨by decide, hops⟩, flag_timestamps_monotone c2DB _ (by decide) hops⟩

/-- With team internal ids unique (`user_id` is a primary key), at most
one team matches a given id in the join of `get_new_tasks`. -/
lemma matching_teams_le_one (teams : List Team)
    (hteams : (teams.map Team.user_id).Nodup) (x : Nat) :
    (teams.filter (fun team => team.user_id == x)).length ≤ 1 := by
  have hlen : (teams.filter (fun team => team.user_id == x)).length =
      ((teams.map Team.user_id).filter (· == x)).length := by
    rw [List.filter_map]
    rw [List.length_map]
    rfl
  rw [hlen, ← List.countP_eq_length_filter]
  have hcount : List.countP (· == x) (teams.map Team.user_id) =
      List.count x (teams.map Team.user_id) := by rw [List.count]
  rw [hcount]
  exact List.nodup_iff_count_le_one.mp hteams x

/-- A `flatMap` whose inner lists hold at most one element, always equal
to `g a`, is a sublist of `map g`. -/
lemma flatMap_singleton_sublist {α β : Type} (l : List α) (h : α → List β) (g : α → β)
    (hval : ∀ a ∈ l, ∀ b ∈ h a, b = g a) (hlen : ∀ a ∈ l, (h a).length ≤ 1) :
    (l.flatMap h).Sublist (l.map g) := by
  induction l with
  | nil => simp
  | cons a rest ih =>
      rw [List.flatMap_cons, List.map_cons]
      have hrest := ih (fun x hx b hb => hval x (List.mem_cons_of_mem _ hx) b hb)
        (fun x hx => hlen x (List.mem_cons_of_mem _ hx))
      cases hha : h a with
      | nil =>
          rw [List.nil_append]
          exact hrest.cons _
      | cons b t =>
          have hlen1 := hlen a (List.mem_cons_self a rest)
          rw [hha] at hlen1
          have ht : t = [] := by
            simp only [List.length_cons] at hlen1
            exact List.length_eq_zero.mp (by omega)
          subst ht
          have hb : b = g a := hval a (List.mem_cons_self a rest) b
            (by rw [hha]; exact List.mem_cons_self b [])
          subst hb
          rw [List.singleton_append]
          exact hrest.cons₂ _

/-- The flag ids of the join rows are distinct, given distinct flag ids
and distinct team ids in the database. -/
lemma joinRows_ids_nodup (db : GameDB) (service_id : Nat)
    (hflags : (db.flags.map Flag.id).Nodup)
    (hteams : (db.teams.map Team.user_id).Nodup) :
    ((joinRows db service_id).map (fun row => row.1.id)).Nodup := by
  cases hctl : db.control with
  | none =>
      unfold joinRows
      rw [hctl]
      simp
  | some control =>
      unfold joinRows
      rw [hctl]
      rw [List.map_flatMap]
      have hinner : ∀ flag : Flag,
          (List.map (fun row : Flag × Team => row.1.id)
            ((db.teams.filter (fun team => team.user_id == flag.protecting_team_id)).map
              (fun team => (flag, team)))) =
          (db.teams.filter (fun team => team.user_id == flag.protecting_team_id)).map
            (fun _ => flag.id) := by
        intro flag
        rw [List.map_map]
        rfl
      have hsub : ((db.flags.filter (fun flag =>
          flag.placement_start == none && flag.tick == control.current_tick &&
            flag.service_id == service_id)).flatMap (fun flag =>
          List.map (fun row : Flag × Team => row.1.id)
            ((db.teams.filter (fun team => team.user_id == flag.protecting_team_id)).map
              (fun team => (flag, team))))).Sublist
          ((db.flags.filter (fun flag =>
            flag.placement_start == none && flag.tick == control.current_tick &&
              flag.service_id == service_id)).map Flag.id) := by
        apply flatMap_singleton_sublist
        · intro flag _ b hb
          rw [hinner flag] at hb
          obtain ⟨team, _, heq⟩ := List.mem_map.mp hb
          exact heq.symm
        · intro flag _
          rw [hinner flag, List.length_map]
          exact matching_teams_le_one db.teams hteams flag.protecting_team_id
      have hfiltered : ((db.flags.filter (fun flag =>
          flag.placement_start == none && flag.tick == control.current_tick &&
            flag.service_id == service_id)).map Flag.id).Nodup :=
        ((List.filter_sublist db.flags).map Flag.id).nodup hflags
      exact hsub.nodup hfiltered

/-- The flag ids fetched by one `get_new_tasks` call are distinct. -/
lemma selRows_ids_nodup (db : GameDB) (service_id task_count : Nat)
    (shuffle : List (Flag × Team) → List (Flag × Team))
    (hperm : (shuffle (joinRows db service_id)).Perm (joinRows db service_id))
    (hflags : (db.flags.map Flag.id).Nodup)
    (hteams : (db.teams.map Team.user_id).Nodup) :
    ((selRows db service_id task_count shuffle).map (fun row => row.1.id)).Nodup := by
  have hjoin := joinRows_ids_nodup db service_id hflags hteams
  have hshuffled : ((shuffle (joinRows db service_id)).map
      (fun row : Flag × Team => row.1.id)).Nodup :=
    (hperm.map (fun row : Flag × Team => row.1.id)).nodup_iff.mpr hjoin
  exact (((List.take_sublist _ _).map (fun row : Flag × Team => row.1.id)).nodup hshuffled)

/-- After `markFlags`, a flag whose id is either already blocked or among
the freshly marked rows cannot be open. -/
lemma markFlags_blocked {flags : List Flag} {rows : List (Flag × Team)} {now : Int}
    (S : List Nat)
    (hS : ∀ flag ∈ flags, flag.id ∈ S → flag.placement_start ≠ none) :
    ∀ flag' ∈ markFlags flags rows now,
      (flag'.id ∈ S ∨ ∃ row ∈ rows, row.1.id = flag'.id) →
        flag'.placement_start ≠ none := by
  intro flag' hf' hcase
  obtain ⟨flag0, hf0, heq⟩ := List.mem_map.mp hf'
  by_cases hc : rows.any (fun row => row.1.id == flag0.id)
  · rw [← heq]
    simp [hc]
  · have heq0 : flag' = flag0 := by rw [← heq]; simp [hc]
    rw [heq0] at hcase ⊢
    rcases hcase with h | ⟨row, hrow, hid⟩
    · exact hS flag0 hf0 h
    · exfalso
      rw [Bool.not_eq_true, List.any_eq_false] at hc
      exact hc row hrow (beq_iff_eq.mpr hid)

/-- One pending `claimBatch` call: which service, how many, the
`ORDER BY RANDOM()` reordering, and the claim timestamp. -/
structure ClaimReq where
  service_id : Nat
  task_count : Nat
  shuffle : List (Flag × Team) → List (Flag × Team)
  now : Int

/-- Run a sequence of `get_new_tasks` calls; each element pairs the
database a call saw with the rows that call fetched and claimed (the
call's returned records are exactly those rows' team ids, net numbers and
ticks).  Under the source's `SELECT ... FOR UPDATE` row locking each call
is one atomic unit, so any concurrent execution is equivalent to some
sequential order of the calls — which this models. -/
def runClaims : GameDB → List ClaimReq → List (GameDB × List (Flag × Team))
  | _, [] => []
  | db, req :: rest =>
      (db, selRows db req.service_id req.task_count req.shuffle) ::
        runClaims (get_new_tasks db req.service_id req.task_count req.shuffle req.now).2 rest

/-- Generalised invariant for C8: starting from a database in which every
flag with an id in the blocked set `S` is already claimed, the batches
fetch pairwise-distinct flag ids, never an id from `S`, and only rows
open in the database their call saw. -/
lemma runClaims_aux (reqs : List ClaimReq) :
    ∀ (db : GameDB) (S : List Nat),
    (db.flags.map Flag.id).Nodup →
    (db.teams.map Team.user_id).Nodup →
    (∀ req ∈ reqs, ∀ l, (req.shuffle l).Perm l) →
    (∀ flag ∈ db.flags, flag.id ∈ S → flag.placement_start ≠ none) →
    ((runClaims db reqs).flatMap (fun p => p.2.map (fun row => row.1.id))).Nodup
    ∧ (∀ x ∈ (runClaims db reqs).flatMap (fun p => p.2.map (fun row => row.1.id)),
        x ∉ S)
    ∧ ∀ p ∈ runClaims db reqs, ∀ row ∈ p.2,
        row.1 ∈ p.1.flags ∧ row.1.placement_start = none := by
  induction reqs with
  | nil =>
      intro db S _ _ _ _
      refine ⟨by simp [runClaims], by simp [runClaims], by simp [runClaims]⟩
  | cons req rest ih =>
      intro db S hflags hteams hperm hS
      have hpermreq : ∀ l, (req.shuffle l).Perm l :=
        hperm req (List.mem_cons_self req rest)
      have hrow_props : ∀ row ∈ selRows db req.service_id req.task_count req.shuffle,
          row.1 ∈ db.flags ∧ row.1.placement_start = none := by
        intro row hrow
        obtain ⟨control, _, hfmem, hopen, _, _, _, _⟩ :=
          mem_joinRows (mem_selRows (hpermreq _) hrow)
        exact ⟨hfmem, hopen⟩
      have hrows_nodup : ((selRows db req.service_id req.task_count req.shuffle).map
          (fun row => row.1.id)).Nodup :=
        selRows_ids_nodup db req.service_id req.task_count req.shuffle
          (hpermreq _) hflags hteams
      have hrows_notS : ∀ x ∈ (selRows db req.service_id req.task_count req.shuffle).map
          (fun row => row.1.id), x ∉ S := by
        intro x hx hxS
        obtain ⟨row, hrow, heq⟩ := List.mem_map.mp hx
        obtain ⟨hfmem, hopen⟩ := hrow_props row hrow
        exact hS row.1 hfmem (heq ▸ hxS) hopen
      have hflags' : (((get_new_tasks db req.service_id req.task_count req.shuffle
          req.now).2).flags.map Flag.id).Nodup := by
        have h := applyOp_flags_map_id db
          (DBOp.claim req.service_id req.task_count req.shuffle req.now)
        rw [show (applyOp db (DBOp.claim req.service_id req.task_count req.shuffle
          req.now)) = (get_new_tasks db req.service_id req.task_count req.shuffle
          req.now).2 from rfl] at h
        rw [h]
        exact hflags
      have hS' : ∀ flag ∈ ((get_new_tasks db req.service_id req.task_count req.shuffle
          req.now).2).flags,
          flag.id ∈ (S ++ (selRows db req.service_id req.task_count req.shuffle).map
            (fun row => row.1.id)) → flag.placement_start ≠ none := by
        intro flag hf hid
        apply markFlags_blocked S hS flag hf
        rcases List.mem_append.mp hid with h | h
        · exact Or.inl h
        · right
          obtain ⟨row, hrow, heq⟩ := List.mem_map.mp h
          exact ⟨row, hrow, heq⟩
      obtain ⟨ih1, ih2, ih3⟩ := ih
        ((get_new_tasks db req.service_id req.task_count req.shuffle req.now).2)
        (S ++ (selRows db req.service_id req.task_count req.shuffle).map
          (fun row => row.1.id))
        hflags' hteams (fun r hr => hperm r (List.mem_cons_of_mem _ hr)) hS'
      refine ⟨?_, ?_, ?_⟩
      · rw [runClaims, List.flatMap_cons, List.nodup_append]
        refine ⟨hrows_nodup, ih1, ?_⟩
        intro x hx hx2
        exact ih2 x hx2 (List.mem_append_right S hx)
      · intro x hx
        rw [runClaims, List.flatMap_cons] at hx
        rcases List.mem_append.mp hx with h | h
        · exact hrows_notS x h
        · intro hxS
          exact ih2 x h (List.mem_append_left _ hxS)
      · intro p hp
        rw [runClaims] at hp
        rcases List.mem_cons.mp hp with h | h
        · subst h
          exact hrow_props
        · exact ih3 p h

/-- C8: for any sequence of `claimBatch` calls (the sequential order some
concurrent execution's atomic claims happened in), the flag ids fetched
across all calls are pairwise distinct — no WorkItem is handed to two
callers — and every fetched row was open in the store as it was at that
call's time. -/
theorem claimBatch_exclusive (db : GameDB) (reqs : List ClaimReq)
    (hflags : (db.flags.map Flag.id).Nodup)
    (hteams : (db.teams.map Team.user_id).Nodup)
    (hperm : ∀ req ∈ reqs, ∀ l, (req.shuffle l).Perm l) :
    ((runClaims db reqs).flatMap (fun p => p.2.map (fun row => row.1.id))).Nodup
    ∧ ∀ p ∈ runClaims db reqs, ∀ row ∈ p.2,
        row.1 ∈ p.1.flags ∧ row.1.placement_start = none := by
  obtain ⟨h1, _, h3⟩ := runClaims_aux reqs db [] hflags hteams hperm
    (by intro flag _ h; cases h)
  exact ⟨h1, h3⟩

/-- A database with three open flags of service 1 at the current tick,
for the C8 witness. -/
def c8DB : GameDB :=
  { control := some { start := 0, valid_ticks := 480, tick_duration := 180,
                      current_tick := 0 }
    services := [{ id := 1, name := "service1", slug := "service1" }]
    teams := [{ user_id := 3, net_number := 101 },
              { user_id := 4, net_number := 102 },
              { user_id := 5, net_number := 103 }]
    flags := [{ id := 1, service_id := 1, protecting_team_id := 3, tick := 0,
                placement_start := none, placement_end := none },
              { id := 2, service_id := 1, protecting_team_id := 4, tick := 0,
                placement_start := none, placement_end := none },
              { id := 3, service_id := 1, protecting_team_id := 5, tick := 0,
                placement_start := none, placement_end := none }]
    statuschecks := []
    next_flag_id := 4 }

/-- The two claim calls of the C8 witness: both for service 1, two tasks
each, identity reordering. -/
def c8Reqs : List ClaimReq :=
  [{ service_id := 1, task_count := 2, shuffle := id, now := 5 },
   { service_id := 1, task_count := 2, shuffle := id, now := 6 }]

/-- Witness for C8: two batches of two against the same three-flag pool
fetch disjoint flag ids, each open at its call's time. -/
theorem claimBatch_exclusive_witness :
    ((c8DB.flags.map Flag.id).Nodup
      ∧ (c8DB.teams.map Team.user_id).Nodup
      ∧ ∀ req ∈ c8Reqs, ∀ l, (req.shuffle l).Perm l)
    ∧ (((runClaims c8DB c8Reqs).flatMap
          (fun p => p.2.map (fun row => row.1.id))).Nodup
      ∧ ∀ p ∈ runClaims c8DB c8Reqs, ∀ row ∈ p.2,
          row.1 ∈ p.1.flags ∧ row.1.placement_start = none) := by
  have hperm : ∀ req ∈ c8Reqs, ∀ l, (req.shuffle l).Perm l := by
    intro req hreq l
    rcases List.mem_cons.mp hreq with h | h
    · subst h
      exact List.Perm.refl l
    · rcases List.mem_cons.mp h with h' | h'
      · subst h'
        exact List.Perm.refl l
      · cases h'
  exact ⟨⟨by decide, by decide, hperm⟩,
    claimBatch_exclusive c8DB c8Reqs (by decide) (by decide) hperm⟩

end CtfGameserver
